import Mathlib

/-!
Shallow embedding of the core pipeline of `justoy/ai-podcast`
(`src/app/page.tsx`): transcript segmentation, sequential multi-voice
synthesis, the bounded history store, and the playback index/effect logic.

The file holds two variants of the component, separated in the source:
the current one (substring speaker detection, preamble lines skipped) and
the older one (prefix speaker detection, preamble lines buffered).  Both
segmentations are embedded; every other definition follows the current
variant.
-/

/-- Speaker roles, the `'host' | 'guest'` union type of the source. -/
inductive Speaker where
  | host
  | guest
deriving DecidableEq, Repr

/-- A speaker-labeled transcript chunk, `{ speaker, text }` in the source. -/
structure Chunk where
  speaker : Speaker
  text : String
deriving DecidableEq, Repr

/-- A synthesized audio segment (`PodcastSegment` in the source).  The
source stores `url: string`, an object URL for the returned audio blob; the
embedding models that opaque playable handle by the audio bytes it denotes. -/
structure PodcastSegment where
  url : List Nat
  speaker : Speaker
  text : String
deriving DecidableEq, Repr

/-- `StoredPodcast` of the source: one saved history entry. -/
structure StoredPodcast where
  id : String
  topic : String
  transcript : String
  segments : List PodcastSegment
  createdAt : Nat
deriving DecidableEq, Repr

/-! ### Transcript segmentation (source lines 178-202 and 609-631) -/

/-- Split a character list at every newline.  `content.split(/\n+/)` splits
at maximal newline runs; splitting at each single newline instead only adds
empty pieces between adjacent newlines, and the subsequent
`.filter(Boolean)` removes every empty piece from either reading, so the
filtered results coincide. -/
def splitLinesChars : List Char → List Char → List String
  | [], acc => [String.mk acc.reverse]
  | c :: cs, acc =>
    if c = '\n' then String.mk acc.reverse :: splitLinesChars cs []
    else splitLinesChars cs (c :: acc)

/-- `content.split(/\n+/).filter(Boolean)` of the source. -/
def splitLines (content : String) : List String :=
  (splitLinesChars content.toList []).filter (fun l => decide (l ≠ ""))

/-- Does `pat` occur as a contiguous run inside `l`?  Embeds
`String.prototype.includes`. -/
def occursIn (pat : List Char) : List Char → Bool
  | [] => decide (pat = [])
  | c :: cs => pat.isPrefixOf (c :: cs) || occursIn pat cs

/-- The `who` of the current variant: `l.includes('Host:') ? 'host' :
l.includes('Guest:') ? 'guest' : null`. -/
def whoSub (l : String) : Option Speaker :=
  if occursIn "Host:".toList l.toList then some Speaker.host
  else if occursIn "Guest:".toList l.toList then some Speaker.guest
  else none

/-- The `who` of the older variant: `l.startsWith('Host:') ? 'host' :
l.startsWith('Guest:') ? 'guest' : null`. -/
def whoStarts (l : String) : Option Speaker :=
  if "Host:".toList.isPrefixOf l.toList then some Speaker.host
  else if "Guest:".toList.isPrefixOf l.toList then some Speaker.guest
  else none

/-- The character class `\s` of JavaScript regular expressions. -/
def jsWhitespace (c : Char) : Bool :=
  c = '\t' || c = '\n' || c = '\x0b' || c = '\x0c' || c = '\r' || c = ' ' ||
  c = ' ' || c = ' ' || (0x2000 ≤ c.toNat && c.toNat ≤ 0x200A) ||
  c = ' ' || c = ' ' || c = ' ' || c = ' ' ||
  c = '　' || c = '﻿'

/-- The character class `[:：]`: an ASCII or full-width colon. -/
def isColon (c : Char) : Bool := c = ':' || c = '：'

/-- Line terminators, which `.` in a JavaScript regular expression never
matches. -/
def isLineTerm (c : Char) : Bool :=
  c = '\n' || c = '\r' || c = ' ' || c = ' '

/-- The match of `/^.*?[:：]\s*/` on a character list: the lazy `.*?` stops
at the first colon reachable without crossing a line terminator, and `\s*`
then greedily eats whitespace.  Returns the remainder after the match, or
`none` when the pattern does not match. -/
def stripLabelChars : List Char → Option (List Char)
  | [] => none
  | c :: rest =>
    if isColon c then some (rest.dropWhile jsWhitespace)
    else if isLineTerm c then none
    else stripLabelChars rest

/-- `line.replace(/^.*?[:：]\s*/, ' ')`: the matched label prefix is
replaced by a single space; an unmatched line is returned unchanged. -/
def stripLabel (line : String) : String :=
  match stripLabelChars line.toList with
  | none => line
  | some rest => String.mk (' ' :: rest)

/-- The chunk-building loop of the current variant (source lines 187-202):
state is the line list, the current speaker (`curr`), the text buffer
(`buf`) and the emitted chunks.  A line with no label is appended to the
buffer only when a speaker is already current; otherwise it is skipped. -/
def segLoopV1 : List String → Option Speaker → String → List Chunk → List Chunk
  | [], curr, buf, chunks =>
    match curr with
    | some sp => if buf = "" then chunks else chunks ++ [⟨sp, buf⟩]
    | none => chunks
  | line :: rest, curr, buf, chunks =>
    match whoSub line, curr with
    | some s, some cspk =>
      if s ≠ cspk then
        segLoopV1 rest (some s) (stripLabel line ++ " ") (chunks ++ [⟨cspk, buf⟩])
      else
        segLoopV1 rest (some s) (buf ++ stripLabel line ++ " ") chunks
    | some s, none =>
      segLoopV1 rest (some s) (buf ++ stripLabel line ++ " ") chunks
    | none, some _ => segLoopV1 rest curr (buf ++ line ++ " ") chunks
    | none, none => segLoopV1 rest curr buf chunks

/-- The chunk-building loop of the older variant (source lines 618-631): a
line with no label is always appended to the buffer, even before any
speaker was seen. -/
def segLoopV2 : List String → Option Speaker → String → List Chunk → List Chunk
  | [], curr, buf, chunks =>
    match curr with
    | some sp => if buf = "" then chunks else chunks ++ [⟨sp, buf⟩]
    | none => chunks
  | line :: rest, curr, buf, chunks =>
    match whoStarts line, curr with
    | some s, some cspk =>
      if s ≠ cspk then
        segLoopV2 rest (some s) (stripLabel line ++ " ") (chunks ++ [⟨cspk, buf⟩])
      else
        segLoopV2 rest (some s) (buf ++ stripLabel line ++ " ") chunks
    | some s, none =>
      segLoopV2 rest (some s) (buf ++ stripLabel line ++ " ") chunks
    | none, _ => segLoopV2 rest curr (buf ++ line ++ " ") chunks

/-- Segmentation of the current variant: substring speaker detection. -/
def segmentTranscript (content : String) : List Chunk :=
  segLoopV1 (splitLines content) none "" []

/-- Segmentation of the older variant: prefix speaker detection. -/
def segmentTranscriptV2 (content : String) : List Chunk :=
  segLoopV2 (splitLines content) none "" []

/-! ### Sequential synthesis (source lines 204-233) -/

/-- The observable part of one speech-synthesis HTTP response: `ok`,
`status`, `statusText` and the returned audio buffer. -/
structure TTSResponse where
  ok : Bool
  status : Nat
  statusText : String
  audio : List Nat
deriving DecidableEq, Repr

/-- Voice selection: `chunk.speaker === 'host' ? 'alloy' : 'nova'`. -/
def voiceFor : Speaker → String
  | Speaker.host => "alloy"
  | Speaker.guest => "nova"

/-- The message of the error thrown on a non-success synthesis response. -/
def ttsErrorMsg (res : TTSResponse) : String :=
  "TTS API → " ++ toString res.status ++ " " ++ res.statusText

/-- The TTS loop: one request per chunk, strictly in order, taking the
network as an oracle from (voice, input text) to a response.  A non-success
response aborts the whole loop with the thrown error message; a success
appends one segment holding the audio handle, the speaker and the chunk
text. -/
def synthesize (tts : String → String → TTSResponse) : List Chunk → Except String (List PodcastSegment)
  | [] => Except.ok []
  | c :: rest =>
    let res := tts (voiceFor c.speaker) c.text
    if res.ok then
      match synthesize tts rest with
      | Except.ok segs => Except.ok (⟨res.audio, c.speaker, c.text⟩ :: segs)
      | Except.error e => Except.error e
    else Except.error (ttsErrorMsg res)

/-! ### History store (source lines 84-105) and pipeline tail (204-243) -/

/-- The pure content of `savePodcastToHistory`: build the new entry with
`id = Date.now().toString()` and `createdAt = Date.now()`, `unshift` it
onto the stored list, then `slice(0, 10)`. -/
def savePodcastToHistory (now : Nat) (topic transcript : String)
    (segments : List PodcastSegment) (history : List StoredPodcast) : List StoredPodcast :=
  (⟨toString now, topic, transcript, segments, now⟩ :: history).take 10

/-- The ids of a history list. -/
def historyIds (h : List StoredPodcast) : List String := h.map (fun p => p.id)

/-- The component state touched by the pipeline tail: the transcript and
segment state hooks, the error message, the `podcast_history` storage cell
(`none` when absent) and the `podcastHistory` state hook. -/
structure AppState where
  transcript : String
  segments : List PodcastSegment
  error : String
  storage : Option (List StoredPodcast)
  podcastHistory : List StoredPodcast
deriving DecidableEq, Repr

/-- `savePodcastToHistory` as a state transformer.  `writeThrows` models
`localStorage.setItem` throwing: the whole body sits in a `try` whose
`catch` only logs, and the throw happens before `setPodcastHistory`, so a
failed write leaves every piece of state unchanged and surfaces no error. -/
def savePodcastToHistoryRun (writeThrows : Bool) (now : Nat)
    (topic transcript : String) (segments : List PodcastSegment)
    (st : AppState) : AppState :=
  let trimmed := savePodcastToHistory now topic transcript segments (st.storage.getD [])
  if writeThrows then st
  else { st with storage := some trimmed, podcastHistory := trimmed }

/-- The tail of `generatePodcast` after the transcript call returned
`content`: clear segments and the error, store the transcript, segment,
run the sequential TTS loop, then either install the segments and save to
history, or (on a thrown synthesis error) set the error message, leaving
the cleared segment list in place. -/
def generateTail (writeThrows : Bool) (now : Nat) (topic content : String)
    (tts : String → String → TTSResponse) (st0 : AppState) : AppState :=
  let st := { st0 with transcript := content, segments := [], error := "" }
  match synthesize tts (segmentTranscript content) with
  | Except.ok segs =>
    savePodcastToHistoryRun writeThrows now topic content segs { st with segments := segs }
  | Except.error e => { st with error := e }

/-! ### Playback index and install/advance effect (source lines 273-344) -/

/-- `skipNext`: advance only while a next segment exists. -/
def skipNext (segLen currentIdx : Nat) : Nat :=
  if currentIdx + 1 < segLen then currentIdx + 1 else currentIdx

/-- The `ended` listener's index update: advance only while a next segment
exists. -/
def onEndedIdx (segLen currentIdx : Nat) : Nat :=
  if currentIdx + 1 < segLen then currentIdx + 1 else currentIdx

/-- What the install/advance effect commands the audio sink to do. -/
inductive SinkAction where
  | noop
  | load (url : List Nat)
  | play (url : List Nat)
deriving DecidableEq, Repr

/-- The install/advance effect (source lines 322-344): with no segments or
no segment at the current index it does nothing; at index 0 it attaches
and loads segment 0 without starting it; at a later index it attaches and
auto-plays that segment. -/
def installAdvanceEffect (segs : List PodcastSegment) (i : Nat) : SinkAction :=
  if segs.length = 0 then SinkAction.noop
  else
    match segs[i]? with
    | none => SinkAction.noop
    | some seg => if i = 0 then SinkAction.load seg.url else SinkAction.play seg.url

/-- The `audioReady` flag is the only piece of state the `canplay` handler
touches. -/
structure PlayerUI where
  audioReady : Bool
deriving DecidableEq, Repr

/-- The `canplay` listener (source lines 294-297): it sets `audioReady`
and commands nothing of the sink; in particular it never starts playback. -/
def onCanPlayHandler (ui : PlayerUI) : PlayerUI × SinkAction :=
  ({ ui with audioReady := true }, SinkAction.noop)

/-! ### Concrete instances used to exercise the theorems -/

/-- A synthesis oracle that always succeeds. -/
def ttsOK : String → String → TTSResponse := fun _ _ => ⟨true, 200, "OK", [3]⟩

/-- A synthesis oracle that fails exactly on the input text " b ". -/
def ttsFailB : String → String → TTSResponse := fun _ input =>
  if input = " b " then ⟨false, 500, "Server Error", []⟩ else ⟨true, 200, "OK", [7]⟩

/-- A concrete stored podcast. -/
def podcastA : StoredPodcast := ⟨"0", "", "", [], 0⟩

/-- Another concrete stored podcast, with a different id. -/
def podcastB : StoredPodcast := ⟨"1", "", "", [], 1⟩

/-- A concrete chunk list: the segmentation of "Host: a\nGuest: b". -/
def chunksW : List Chunk := [⟨Speaker.host, " a "⟩, ⟨Speaker.guest, " b "⟩]

/-- A concrete component state with non-trivial storage. -/
def stA : AppState := ⟨"", [], "", some [podcastB], [podcastB]⟩

/-! ## Theorems -/

/-- C1: for every chunk list on which synthesis completes successfully, the
resulting segment list has exactly one segment per input chunk in the same
order: the lengths agree, and at every index the segment's speaker and text
are the chunk's speaker and text. -/
theorem synthesize_ok_one_segment_per_chunk
    (tts : String → String → TTSResponse) (chunks : List Chunk)
    (segs : List PodcastSegment) (h : synthesize tts chunks = Except.ok segs) :
    segs.length = chunks.length ∧
    ∀ i, i < chunks.length →
      ∃ s c, segs[i]? = some s ∧ chunks[i]? = some c ∧
        s.speaker = c.speaker ∧ s.text = c.text := by
  induction chunks generalizing segs with
  | nil =>
    simp only [synthesize] at h
    cases h
    exact ⟨rfl, fun i hi => by simp at hi⟩
  | cons c rest ih =>
    simp only [synthesize] at h
    by_cases hok : (tts (voiceFor c.speaker) c.text).ok
    · rw [if_pos hok] at h
      cases hrec : synthesize tts rest with
      | ok segs2 =>
        rw [hrec] at h
        simp only [Except.ok.injEq] at h
        subst h
        obtain ⟨hlen, hidx⟩ := ih segs2 hrec
        refine ⟨by simp [hlen], ?_⟩
        intro i hi
        cases i with
        | zero =>
          exact ⟨⟨(tts (voiceFor c.speaker) c.text).audio, c.speaker, c.text⟩, c,
            by simp, by simp, rfl, rfl⟩
        | succ j =>
          obtain ⟨s, c2, hs, hc2, hsp, htx⟩ := hidx j (by simpa using hi)
          exact ⟨s, c2, by simpa using hs, by simpa using hc2, hsp, htx⟩
      | error e =>
        rw [hrec] at h
        cases h
    · rw [if_neg hok] at h
      cases h

/-- C1 witness: a two-chunk list synthesized with an always-succeeding
oracle. -/
theorem synthesize_ok_one_segment_per_chunk_witness :
    ([⟨[3], Speaker.host, "a"⟩, ⟨[3], Speaker.guest, "b"⟩] : List PodcastSegment).length
      = ([⟨Speaker.host, "a"⟩, ⟨Speaker.guest, "b"⟩] : List Chunk).length ∧
    ∀ i, i < ([⟨Speaker.host, "a"⟩, ⟨Speaker.guest, "b"⟩] : List Chunk).length →
      ∃ s c, ([⟨[3], Speaker.host, "a"⟩, ⟨[3], Speaker.guest, "b"⟩] : List PodcastSegment)[i]? = some s ∧
        ([⟨Speaker.host, "a"⟩, ⟨Speaker.guest, "b"⟩] : List Chunk)[i]? = some c ∧
        s.speaker = c.speaker ∧ s.text = c.text :=
  synthesize_ok_one_segment_per_chunk ttsOK
    [⟨Speaker.host, "a"⟩, ⟨Speaker.guest, "b"⟩]
    [⟨[3], Speaker.host, "a"⟩, ⟨[3], Speaker.guest, "b"⟩] rfl

/-- C2: if some synthesis request returns a non-success response, the whole
synthesis fails with the upstream status of the first failing chunk in the
error message, no successful segment list is ever produced, and the pipeline
tail installs no partial segment list, surfaces that error, and saves
nothing to storage. -/
theorem synthesize_first_failure_aborts
    (tts : String → String → TTSResponse) (chunks : List Chunk) (c : Chunk)
    (h : chunks.find? (fun ch => !(tts (voiceFor ch.speaker) ch.text).ok) = some c) :
    synthesize tts chunks = Except.error (ttsErrorMsg (tts (voiceFor c.speaker) c.text)) ∧
    (∀ segs, synthesize tts chunks ≠ Except.ok segs) ∧
    ∀ wt now topic content st, segmentTranscript content = chunks →
      (generateTail wt now topic content tts st).segments = [] ∧
      (generateTail wt now topic content tts st).error
        = ttsErrorMsg (tts (voiceFor c.speaker) c.text) ∧
      (generateTail wt now topic content tts st).storage = st.storage := by
  have herr : synthesize tts chunks
      = Except.error (ttsErrorMsg (tts (voiceFor c.speaker) c.text)) := by
    induction chunks with
    | nil => simp [List.find?] at h
    | cons ch rest ih =>
      by_cases hok : (tts (voiceFor ch.speaker) ch.text).ok
      · rw [List.find?_cons_of_neg] at h
        · have hrec := ih h
          simp only [synthesize]
          rw [if_pos hok, hrec]
        · simp [hok]
      · rw [List.find?_cons_of_pos] at h
        · cases h
          simp only [synthesize]
          rw [if_neg hok]
        · simp [hok]
  refine ⟨herr, ?_, ?_⟩
  · intro segs hcontra
    rw [herr] at hcontra
    cases hcontra
  · intro wt now topic content st hc
    simp [generateTail, hc, herr]

/-- C2 witness: a two-chunk list whose second chunk draws a 500 response. -/
theorem synthesize_first_failure_aborts_witness :
    chunksW.find? (fun ch => !(ttsFailB (voiceFor ch.speaker) ch.text).ok)
      = some ⟨Speaker.guest, " b "⟩ ∧
    (synthesize ttsFailB chunksW
       = Except.error (ttsErrorMsg (ttsFailB (voiceFor Speaker.guest) " b ")) ∧
     (∀ segs, synthesize ttsFailB chunksW ≠ Except.ok segs) ∧
     ∀ wt now topic content st, segmentTranscript content = chunksW →
       (generateTail wt now topic content ttsFailB st).segments = [] ∧
       (generateTail wt now topic content ttsFailB st).error
         = ttsErrorMsg (ttsFailB (voiceFor Speaker.guest) " b ") ∧
       (generateTail wt now topic content ttsFailB st).storage = st.storage) :=
  ⟨by decide, synthesize_first_failure_aborts ttsFailB chunksW ⟨Speaker.guest, " b "⟩ (by decide)⟩

/-- C3: saving to a full list of 10 yields exactly 10 entries, namely the
new podcast at the head followed by the first 9 old ones (the oldest entry
evicted), and no save ever produces a list longer than 10. -/
theorem savePodcastToHistory_cap (now : Nat) (topic transcript : String)
    (segs : List PodcastSegment) (history : List StoredPodcast)
    (h : history.length = 10) :
    (savePodcastToHistory now topic transcript segs history).length = 10 ∧
    savePodcastToHistory now topic transcript segs history =
      ⟨toString now, topic, transcript, segs, now⟩ :: history.take 9 ∧
    ∀ h2 : List StoredPodcast,
      (savePodcastToHistory now topic transcript segs h2).length ≤ 10 := by
  refine ⟨?_, ?_, ?_⟩
  · simp [savePodcastToHistory, List.length_take, h]
  · rw [savePodcastToHistory, show (10 : Nat) = 9 + 1 from rfl, List.take_succ_cons]
  · intro h2
    simp only [savePodcastToHistory, List.length_take]
    omega

/-- C3 witness: saving an 11th podcast to a concrete full list of 10. -/
theorem savePodcastToHistory_cap_witness :
    (List.replicate 10 podcastA).length = 10 ∧
    ((savePodcastToHistory 1 "t" "tr" [] (List.replicate 10 podcastA)).length = 10 ∧
     savePodcastToHistory 1 "t" "tr" [] (List.replicate 10 podcastA) =
       ⟨toString 1, "t", "tr", [], 1⟩ :: (List.replicate 10 podcastA).take 9 ∧
     ∀ h2 : List StoredPodcast,
       (savePodcastToHistory 1 "t" "tr" [] h2).length ≤ 10) :=
  ⟨rfl, savePodcastToHistory_cap 1 "t" "tr" [] (List.replicate 10 podcastA) rfl⟩

/-- C4: from a valid index, neither `skip` nor the `ended` handler ever
advances past the last segment, and at the last index both are no-ops, so
the index stays a valid index of the installed list. -/
theorem playback_index_stays_in_range (len i : Nat) (h : i < len) :
    skipNext len i < len ∧ onEndedIdx len i < len ∧
    (i = len - 1 → skipNext len i = i ∧ onEndedIdx len i = i) := by
  refine ⟨?_, ?_, fun he => ⟨?_, ?_⟩⟩ <;>
    simp only [skipNext, onEndedIdx] <;> split <;> omega

/-- C4 witness: the last index of a three-segment list. -/
theorem playback_index_stays_in_range_witness :
    (2 : Nat) < 3 ∧
    (skipNext 3 2 < 3 ∧ onEndedIdx 3 2 < 3 ∧
     (2 = 3 - 1 → skipNext 3 2 = 2 ∧ onEndedIdx 3 2 = 2)) :=
  ⟨by decide, playback_index_stays_in_range 3 2 (by decide)⟩

/-- C5: the install/advance effect loads segment 0 without starting it,
auto-plays every segment at a positive index, and the sink's
ready-to-play signal never starts playback, so the first segment of a new
list plays only after an explicit play call. -/
theorem first_segment_gated_later_segments_autoplay
    (segs : List PodcastSegment) (seg0 seg : PodcastSegment) (i : Nat)
    (h0 : segs[0]? = some seg0) (hi : 0 < i) (hseg : segs[i]? = some seg) :
    installAdvanceEffect segs 0 = SinkAction.load seg0.url ∧
    installAdvanceEffect segs i = SinkAction.play seg.url ∧
    ∀ ui, (onCanPlayHandler ui).2 = SinkAction.noop := by
  have hne : segs.length ≠ 0 := by
    cases segs with
    | nil => simp at h0
    | cons a l => simp
  refine ⟨?_, ?_, fun ui => rfl⟩
  · simp [installAdvanceEffect, hne, h0]
  · simp [installAdvanceEffect, hne, hseg, Nat.pos_iff_ne_zero.mp hi]

/-- C5 witness: a concrete two-segment list at indices 0 and 1. -/
theorem first_segment_gated_later_segments_autoplay_witness :
    ([⟨[1], Speaker.host, "x"⟩, ⟨[2], Speaker.guest, "y"⟩] : List PodcastSegment)[0]?
      = some ⟨[1], Speaker.host, "x"⟩ ∧
    (0 : Nat) < 1 ∧
    ([⟨[1], Speaker.host, "x"⟩, ⟨[2], Speaker.guest, "y"⟩] : List PodcastSegment)[1]?
      = some ⟨[2], Speaker.guest, "y"⟩ ∧
    (installAdvanceEffect [⟨[1], Speaker.host, "x"⟩, ⟨[2], Speaker.guest, "y"⟩] 0
       = SinkAction.load [1] ∧
     installAdvanceEffect [⟨[1], Speaker.host, "x"⟩, ⟨[2], Speaker.guest, "y"⟩] 1
       = SinkAction.play [2] ∧
     ∀ ui, (onCanPlayHandler ui).2 = SinkAction.noop) :=
  ⟨rfl, by decide, rfl,
    first_segment_gated_later_segments_autoplay
      [⟨[1], Speaker.host, "x"⟩, ⟨[2], Speaker.guest, "y"⟩]
      ⟨[1], Speaker.host, "x"⟩ ⟨[2], Speaker.guest, "y"⟩ 1 rfl (by decide) rfl⟩

/-- C6: segmentation of "Host: a\nGuest: b\nHost: c" yields exactly the
three chunks with labels stripped and line order preserved. -/
theorem segmentation_three_turns :
    segmentTranscript "Host: a\nGuest: b\nHost: c" =
      [⟨Speaker.host, " a "⟩, ⟨Speaker.guest, " b "⟩, ⟨Speaker.host, " c "⟩] := by
  decide

/-- C7 counterexample: segmentation of "Host: a\nHost: b" does not yield
the chunk text " a b " claimed by the spec. -/
theorem same_speaker_merge_single_space_cex :
    segmentTranscript "Host: a\nHost: b" ≠ [⟨Speaker.host, " a b "⟩] := by
  decide

/-- C7 amended: consecutive same-speaker lines merge into one chunk whose
text is " a  b " — each stripped line contributes its own leading and
trailing space, so the merged text has two spaces between a and b. -/
theorem same_speaker_lines_merge :
    segmentTranscript "Host: a\nHost: b" = [⟨Speaker.host, " a  b "⟩] := by
  decide

/-- C8 counterexample: two saves at the same millisecond timestamp produce
two history entries with the same id, so the ids are not pairwise
distinct. -/
theorem save_id_collision_cex :
    ¬ (historyIds (savePodcastToHistory 5 "t2" "x" []
        (savePodcastToHistory 5 "t1" "x" [] []))).Nodup := by
  decide

/-- C8 amended: a save whose timestamp string is fresh for the current
history preserves pairwise-distinct ids; ids are unique only as long as no
two saves share a `Date.now()` value. -/
theorem save_fresh_timestamp_ids_nodup (now : Nat) (topic transcript : String)
    (segs : List PodcastSegment) (history : List StoredPodcast)
    (hnodup : (historyIds history).Nodup)
    (hfresh : toString now ∉ historyIds history) :
    (historyIds (savePodcastToHistory now topic transcript segs history)).Nodup := by
  have hmap : historyIds (savePodcastToHistory now topic transcript segs history)
      = (toString now :: historyIds history).take 10 := by
    simp [historyIds, savePodcastToHistory, List.map_take]
  rw [hmap]
  exact List.Nodup.sublist (List.take_sublist 10 _)
    (List.nodup_cons.mpr ⟨hfresh, hnodup⟩)

/-- C8 witness: saving with timestamp 3 onto a history whose sole id is
"1". -/
theorem save_fresh_timestamp_ids_nodup_witness :
    (historyIds [podcastB]).Nodup ∧
    toString (3 : Nat) ∉ historyIds [podcastB] ∧
    (historyIds (savePodcastToHistory 3 "t" "tr" [] [podcastB])).Nodup :=
  ⟨by decide, by decide,
    save_fresh_timestamp_ids_nodup 3 "t" "tr" [] [podcastB] (by decide) (by decide)⟩

/-- C9: a transcript exists on which the substring label policy of the
current variant and the prefix label policy of the older variant produce
different chunk lists. -/
theorem substring_vs_starts_policies_disagree :
    ∃ t : String, segmentTranscript t ≠ segmentTranscriptV2 t :=
  ⟨"intro Host: a", by decide⟩

/-- C10: when the storage write throws during the save of a completed run,
the failure is swallowed inside save: the synthesized segments are still
installed, no error is surfaced, and storage and the history state are
simply left unchanged. -/
theorem storage_failure_suppressed (now : Nat) (topic content : String)
    (tts : String → String → TTSResponse) (st : AppState)
    (segs : List PodcastSegment)
    (h : synthesize tts (segmentTranscript content) = Except.ok segs) :
    (generateTail true now topic content tts st).segments = segs ∧
    (generateTail true now topic content tts st).error = "" ∧
    (generateTail true now topic content tts st).storage = st.storage ∧
    (generateTail true now topic content tts st).podcastHistory = st.podcastHistory := by
  simp [generateTail, h, savePodcastToHistoryRun]

/-- C10 witness: a one-line transcript, an always-succeeding oracle and a
throwing storage write. -/
theorem storage_failure_suppressed_witness :
    synthesize ttsOK (segmentTranscript "Host: hi")
      = Except.ok [⟨[3], Speaker.host, " hi "⟩] ∧
    ((generateTail true 7 "t" "Host: hi" ttsOK stA).segments
       = [⟨[3], Speaker.host, " hi "⟩] ∧
     (generateTail true 7 "t" "Host: hi" ttsOK stA).error = "" ∧
     (generateTail true 7 "t" "Host: hi" ttsOK stA).storage = stA.storage ∧
     (generateTail true 7 "t" "Host: hi" ttsOK stA).podcastHistory = stA.podcastHistory) :=
  ⟨rfl, storage_failure_suppressed 7 "t" "Host: hi" ttsOK stA [⟨[3], Speaker.host, " hi "⟩] rfl⟩
